import Mathlib

/-!
Verification of the indexing and retrieval engine of the
memex-targeted-search-server repository (`src/SearchIndex.ts`, with one
helper duplicated in `src/index.ts`).

The TypeScript source is shallowly embedded: strings are Lean `String`s
manipulated through their `List Char` data, JavaScript regular expressions
become explicit scanning functions, SQLite tables become Lean lists with
the `INSERT OR REPLACE` conflict semantics made explicit, and the parts of
the behaviour supplied by external engines (SQLite FTS5 `MATCH`/`bm25`,
Fuse.js) are abstracted as oracle parameters, since their code is not part
of the repository.
-/

namespace MemexSearch

/-! ## Character classes and low-level string utilities

These model the JavaScript primitives used by `SearchIndex.ts`:
`String.prototype.trim`, `String.prototype.includes`, `split('\n')`,
and the character classes `\w` and `\s` of JS regular expressions. -/

/-- The backtick character (code point 96). -/
def btChar : Char := Char.ofNat 96

/-- The opening brace character (code point 123). -/
def lbraceChar : Char := Char.ofNat 123

/-- The closing brace character (code point 125). -/
def rbraceChar : Char := Char.ofNat 125

/-- JS regex `\w`: ASCII letters, digits and underscore. -/
def isWordChar (c : Char) : Bool := c.isAlphanum || c == '_'

/-- JS regex `\s` (restricted to the ASCII whitespace actually relevant
to the indexed text): space, tab, newline, carriage return, vertical tab
and form feed. -/
def isJsWs (c : Char) : Bool :=
  c == ' ' || c == '\t' || c == '\n' || c == '\r' || c == '\x0b' || c == '\x0c'

/-- Does `l` start with `needle` (character-exact)? -/
def listStarts : List Char → List Char → Bool
  | _, [] => true
  | [], _ :: _ => false
  | a :: as, b :: bs => (a == b) && listStarts as bs

/-- Does `l` start with `needle`, comparing characters case-insensitively
(JS `i` flag, ASCII folding)? -/
def listStartsCI : List Char → List Char → Bool
  | _, [] => true
  | [], _ :: _ => false
  | a :: as, b :: bs => (a.toLower == b.toLower) && listStartsCI as bs

/-- JS `hay.includes(needle)`: `needle` occurs contiguously in `hay`. -/
def listHas : List Char → List Char → Bool
  | [], needle => needle.isEmpty
  | c :: t, needle => listStarts (c :: t) needle || listHas t needle

/-- JS `s.includes(sub)` on strings. -/
def strIncludes (s sub : String) : Bool := listHas s.data sub.data

/-- JS `String.prototype.trim` on a character list: drop whitespace from
both ends. -/
def trimChars (l : List Char) : List Char :=
  (((l.dropWhile isJsWs).reverse.dropWhile isJsWs).reverse)

/-- JS `String.prototype.trim`. -/
def jsTrim (s : String) : String := String.mk (trimChars s.data)

/-- JS `content.split('\n')` on a character list. -/
def splitOnNl : List Char → List (List Char)
  | [] => [[]]
  | c :: t =>
      if c == '\n' then [] :: splitOnNl t
      else
        match splitOnNl t with
        | h :: r => (c :: h) :: r
        | [] => [[c]]

/-- JS `content.split('\n')` producing strings. -/
def splitLines (s : String) : List String := (splitOnNl s.data).map String.mk

/-- Does the predicate hold on some suffix of `l` (a regex match at some
start position)? -/
def anySuffix (p : List Char → Bool) : List Char → Bool
  | [] => p []
  | c :: t => p (c :: t) || anySuffix p t

/-- Does the predicate hold right after some newline of `l` (a JS
multiline `^` anchor at a non-initial line start)? -/
def anyAfterNl (p : List Char → Bool) : List Char → Bool
  | [] => false
  | c :: t => (c == '\n' && p t) || anyAfterNl p t

/-- Does the predicate hold at some line start of `l` (JS multiline `^`)? -/
def anyLineStart (p : List Char → Bool) (l : List Char) : Bool :=
  p l || anyAfterNl p l

/-- Does `l` end with `suffix` (regex `...$`, no multiline flag)? -/
def listEnds (l suffix : List Char) : Bool :=
  listStarts l.reverse suffix.reverse

/-- SQLite TEXT comparison `a <= b`: lexicographic by code point (equal to
the byte order of the UTF-8 encodings). -/
def charListLe : List Char → List Char → Bool
  | [], _ => true
  | _ :: _, [] => false
  | a :: as, b :: bs =>
      if a = b then charListLe as bs else decide (a.toNat < b.toNat)

/-- SQLite TEXT comparison on strings. -/
def strLe (a b : String) : Bool := charListLe a.data b.data

/-! ## Regex fragments shared by the classifier and the extractor -/

/-- Tail of JS regex `\s+\w...`: at least one whitespace character, then a
word character (the classes are disjoint, so greedy matching needs no
backtracking). -/
def wsPlusWord (t : List Char) : Bool :=
  (match t with | c :: _ => isJsWs c | [] => false) &&
  (match t.dropWhile isJsWs with | c :: _ => isWordChar c | [] => false)

/-- JS regex `\$\s+\w+` at the current position. -/
def matchDollarWsWord : List Char → Bool
  | c :: t => c == '$' && wsPlusWord t
  | [] => false

/-- JS regex `word\s+\w+` (case-insensitive) at the current position. -/
def matchWordWsWord (w : List Char) (l : List Char) : Bool :=
  listStartsCI l w && wsPlusWord (l.drop w.length)

/-- JS regex `--\w+` at the current position. -/
def matchDoubleDashWord : List Char → Bool
  | a :: b :: c :: _ => a == '-' && b == '-' && isWordChar c
  | _ => false

/-- JS regex `\s*>\s+` at a line start: skip whitespace, then `>`, then at
least one whitespace character. -/
def matchBlockquote (l : List Char) : Bool :=
  match l.dropWhile isJsWs with
  | c :: d :: _ => c == '>' && isJsWs d
  | _ => false

/-- JS regex `--?\w+` anchored at the current position: one or two dashes
followed by a word character. -/
def matchFlagTail : List Char → Bool
  | a :: b :: c :: _ =>
      if a == '-' && b == '-' then isWordChar c
      else a == '-' && isWordChar b
  | a :: b :: _ => a == '-' && isWordChar b
  | _ => false

/-! ## Content Classifier (`detectContentType`, `hasCommandPatterns`) -/

/-- The derived `content_type` of a message (`'text' | 'code' | 'command'`
in `SearchIndex.ts`). -/
inductive ContentType where
  | text
  | code
  | command
deriving Repr, DecidableEq

/-- Embedding of `hasCommandPatterns` of `SearchIndex.ts`: does the content match any
of the patterns `/\$\s+\w+/`, `/npm\s+\w+/i`, `/git\s+\w+/i`,
`/python\s+\w+/i`, `/node\s+\w+/i`, `--\w+`, `/^\s*>\s+/m`? -/
def hasCommandPatterns (content : String) : Bool :=
  anySuffix matchDollarWsWord content.data ||
  anySuffix (matchWordWsWord "npm".data) content.data ||
  anySuffix (matchWordWsWord "git".data) content.data ||
  anySuffix (matchWordWsWord "python".data) content.data ||
  anySuffix (matchWordWsWord "node".data) content.data ||
  anySuffix matchDoubleDashWord content.data ||
  anyLineStart matchBlockquote content.data

/-- Embedding of `detectContentType` of `SearchIndex.ts`: backtick content is `code`,
else command-shaped content is `command`, else `text`. -/
def detectContentType (content : String) : ContentType :=
  if strIncludes content "```" || strIncludes content "`" then .code
  else if hasCommandPatterns content then .command
  else .text

/-! ## Command Extractor (`looksLikeCommand`, `classifyCommand`,
`extractCommands` and helpers) -/

/-- The `command_type` of an extracted command
(`'cli' | 'code' | 'config'` in `SearchIndex.ts`). -/
inductive CommandType where
  | cli
  | code
  | config
deriving Repr, DecidableEq

/-- The character class `[\w\s\-=\.\/]` of the escape-hatch regex
`/^[\w\s\-=\.\/]+$/` in `looksLikeCommand`. -/
def isParamClassChar (c : Char) : Bool :=
  isWordChar c || isJsWs c || c == '-' || c == '=' || c == '.' || c == '/'

/-- JS `trimmed.match(/^[\w\s\-=\.\/]+$/) !== null`: the whole string is a
nonempty run of param-class characters. -/
def matchesParamClass (l : List Char) : Bool :=
  !l.isEmpty && l.all isParamClassChar

/-- The leading tool names of the first command indicator
`/^(npm|yarn|pnpm|git|python|py|node|tsx|docker|curl|wget|cd|ls|mkdir|cp|mv|rm|firebase|memex)\s/i`. -/
def indicatorTools : List String :=
  ["npm", "yarn", "pnpm", "git", "python", "py", "node", "tsx", "docker",
   "curl", "wget", "cd", "ls", "mkdir", "cp", "mv", "rm", "firebase", "memex"]

/-- The action words of the last command indicator
`/^[a-zA-Z0-9_-]+\s+(install|build|start|deploy|login|init|create|run|test)\b/i`. -/
def actionWords : List String :=
  ["install", "build", "start", "deploy", "login", "init", "create", "run", "test"]

/-- The character class `[a-zA-Z0-9_-]` of the last command indicator. -/
def isActionHeadChar (c : Char) : Bool :=
  c.isAlphanum || c == '_' || c == '-'

/-- JS regex `\b` right after position `n` of `l`, for a pattern whose
last matched character is a word character: the next character is absent
or not a word character. -/
def wordBoundaryAfter (l : List Char) (n : Nat) : Bool :=
  match l.drop n with
  | [] => true
  | c :: _ => !isWordChar c

/-- JS regex `/^\w+\s+--?\w+/` on the whole (trimmed) candidate. -/
def matchWordFlag (l : List Char) : Bool :=
  (match l with | c :: _ => isWordChar c | [] => false) &&
  wsThenFlag (l.dropWhile isWordChar)
where
  wsThenFlag (l1 : List Char) : Bool :=
    (match l1 with | c :: _ => isJsWs c | [] => false) &&
    matchFlagTail (l1.dropWhile isJsWs)

/-- JS regex `/^[a-zA-Z0-9_-]+\s+(install|...|test)\b/i` on the whole
(trimmed) candidate. -/
def matchActionPattern (l : List Char) : Bool :=
  (match l with | c :: _ => isActionHeadChar c | [] => false) &&
  afterHead (l.dropWhile isActionHeadChar)
where
  afterHead (l1 : List Char) : Bool :=
    (match l1 with | c :: _ => isJsWs c | [] => false) &&
    (let l2 := l1.dropWhile isJsWs
     actionWords.any fun w =>
       listStartsCI l2 w.data && wordBoundaryAfter l2 w.data.length)

/-- The `commandIndicators` array of `looksLikeCommand`: does the trimmed
candidate match at least one indicator pattern? -/
def commandIndicators (l : List Char) : Bool :=
  (indicatorTools.any fun w =>
    listStartsCI l w.data &&
    (match l.drop w.data.length with | c :: _ => isJsWs c | [] => false)) ||
  matchWordFlag l ||
  (match l with
   | c :: d :: _ => c == '$' && isJsWs d
   | _ => false) ||
  (listStartsCI l "sudo".data &&
    (match l.drop 4 with | c :: _ => isJsWs c | [] => false)) ||
  (listEnds l ".sh".data || listEnds l ".py".data ||
   listEnds l ".js".data || listEnds l ".ts".data) ||
  matchActionPattern l

/-- Embedding of `looksLikeCommand` of `SearchIndex.ts`. -/
def looksLikeCommand (text : String) : Bool :=
  let trimmed := jsTrim text
  if trimmed.length > 200 || trimmed.length < 3 then false
  else if (strIncludes trimmed (String.mk [lbraceChar]) ||
           strIncludes trimmed (String.mk [rbraceChar]) ||
           strIncludes trimmed "(" ||
           strIncludes trimmed ")") &&
          !matchesParamClass trimmed.data then false
  else commandIndicators trimmed.data

/-- The leading tool names of `classifyCommand`'s cli rule
`/^(npm|yarn|git|python|node|docker|curl|firebase|memex)/` (case-sensitive,
no trailing whitespace requirement). -/
def classifyCliTools : List String :=
  ["npm", "yarn", "git", "python", "node", "docker", "curl", "firebase", "memex"]

/-- Embedding of `classifyCommand` of `SearchIndex.ts`. -/
def classifyCommand (command : String) : CommandType :=
  if classifyCliTools.any fun w => listStarts command.data w.data then .cli
  else if anySuffix matchFlagTail command.data then .config
  else .code

/-- An extracted command record (`IndexedCommand` in `SearchIndex.ts`).
Confidence is an exact rational standing for the JS float. -/
structure IndexedCommand where
  id : String
  conversation_id : String
  message_index : Nat
  command : String
  command_type : CommandType
  context : String
  confidence : ℚ
deriving Repr, DecidableEq

/-- Embedding of `getContextAround` of `SearchIndex.ts`: the trimmed join of
`lines.slice(max(0, i - n), min(lines.length, i + n + 1))`. -/
def getContextAround (lines : List String) (lineIndex contextLines : Nat) : String :=
  let start := lineIndex - contextLines
  let stop := min lines.length (lineIndex + contextLines + 1)
  jsTrim (String.intercalate "\n" ((lines.drop start).take (stop - start)))

/-- Index of the first element of the remaining `lines` (offset by `i`)
whose text contains `command`. -/
def firstLineWith (command : String) : List String → Nat → Option Nat
  | [], _ => none
  | line :: rest, i =>
      if strIncludes line command then some i
      else firstLineWith command rest (i + 1)

/-- Embedding of `getCommandContext` of `SearchIndex.ts`: one line of context around
the first line containing the command text, or the empty string. -/
def getCommandContext (lines : List String) (command : String) : String :=
  match firstLineWith command lines 0 with
  | some i => getContextAround lines i 1
  | none => ""

/-- Fuelled worker for `scanBackticks`; the fuel only bounds the recursion
depth and is always at least the length of the remaining input, so it
never runs out. -/
def scanBtAux : Nat → List Char → List String
  | 0, _ => []
  | _ + 1, [] => []
  | fuel + 1, c :: t =>
      if c == btChar then
        let span := t.takeWhile fun d => !(d == btChar || d == '\n')
        match t.drop span.length with
        | d :: r2 =>
            if span.length ≥ 1 && d == btChar then
              String.mk span :: scanBtAux fuel r2
            else scanBtAux fuel t
        | [] => scanBtAux fuel t
      else scanBtAux fuel t

/-- The global scan of JS regex `` /`([^`\n]+)`/g ``: every non-overlapping
backtick-delimited span without inner backtick or newline, left to right.
The returned spans are the capture groups (backticks stripped).  When no
closing backtick follows a candidate opening backtick, the scan resumes
one character later, as the JS regex engine does. -/
def scanBackticks (l : List Char) : List String := scanBtAux l.length l

/-- Embedding of `extractCommands` of `SearchIndex.ts`: pass A collects accepted
backtick spans (confidence 0.9), pass B collects `$`-prefixed line
commands; both passes append to one list whose length numbers the ids. -/
def extractCommands (content : String) (conversationId : String)
    (messageIndex : Nat) : List IndexedCommand :=
  let lines := splitLines content
  let afterBackticks :=
    (scanBackticks content.data).foldl (fun acc m =>
      let command := jsTrim m
      if command.length > 3 && command.length < 150 && looksLikeCommand command then
        acc ++ [{ id := "cmd_" ++ conversationId ++ "_" ++ toString messageIndex
                        ++ "_" ++ toString acc.length
                  conversation_id := conversationId
                  message_index := messageIndex
                  command := command
                  command_type := classifyCommand command
                  context := getCommandContext lines command
                  confidence := mkRat 9 10 }]
      else acc) []
  lines.enum.foldl (fun acc p =>
    (extractLineCommands p.2).foldl (fun acc2 cmd =>
      acc2 ++ [{ id := "cmd_" ++ conversationId ++ "_" ++ toString messageIndex
                       ++ "_" ++ toString acc2.length
                 conversation_id := conversationId
                 message_index := messageIndex
                 command := cmd.1
                 command_type := .cli
                 context := getContextAround lines p.1 1
                 confidence := cmd.2 }]) acc) afterBackticks
where
  /-- Embedding of `extractLineCommands` of `SearchIndex.ts`: the first match of
  `/\$\s*(.+)/` on the line, trimmed, with type cli and confidence 0.9. -/
  extractLineCommands (line : String) : List (String × ℚ) :=
    match dollarCapture line.data with
    | some cap => [(jsTrim (String.mk cap), mkRat 9 10)]
    | none => []
  /-- First match of JS regex `/\$\s*(.+)/`: at the first `$` followed by
  at least one character, the capture is the rest after the greedy
  whitespace run — backed off by one character when everything after the
  `$` is whitespace, so that `(.+)` is nonempty. -/
  dollarCapture : List Char → Option (List Char)
    | [] => none
    | c :: t =>
        if c == '$' then
          if t.isEmpty then none
          else
            let rest := t.dropWhile isJsWs
            some (if rest.isEmpty then t.drop (t.length - 1) else rest)
        else dollarCapture t

/-! ## Schema Store

SQLite tables become Lean lists of rows.  `INSERT OR REPLACE` into an
ordinary table first deletes every row conflicting on a `PRIMARY KEY` or
`UNIQUE` column, then appends the new row.  The FTS5 virtual tables
(`conversations_fts`, `messages_fts`, `commands_fts`) declare no
constraints, so for them `INSERT OR REPLACE` simply appends. -/

/-- A row of the `conversations` table (`IndexedConversation` in
`SearchIndex.ts`); `project` is nullable. -/
structure IndexedConversation where
  id : String
  conversation_id : String
  title : String
  summary : String
  created_at : String
  project : Option String
  file_path : String
  message_count : Nat
deriving Repr, DecidableEq

/-- A row of the `messages` table (`IndexedMessage` in `SearchIndex.ts`). -/
structure IndexedMessage where
  id : String
  conversation_id : String
  message_index : Nat
  role : String
  content : String
  content_type : ContentType
deriving Repr, DecidableEq

/-- A row of the `conversations_fts` FTS5 table. -/
structure ConvFtsRow where
  conversation_id : String
  title : String
  summary : String
  project : String
deriving Repr, DecidableEq

/-- A row of the `messages_fts` FTS5 table. -/
structure MsgFtsRow where
  conversation_id : String
  content : String
deriving Repr, DecidableEq

/-- A row of the `commands_fts` FTS5 table. -/
structure CmdFtsRow where
  conversation_id : String
  command : String
  context : String
deriving Repr, DecidableEq

/-- The six tables created by `initializeDatabase`. -/
structure Db where
  conversations : List IndexedConversation
  conversations_fts : List ConvFtsRow
  messages : List IndexedMessage
  messages_fts : List MsgFtsRow
  commands : List IndexedCommand
  commands_fts : List CmdFtsRow
deriving Repr, DecidableEq

/-- The empty database produced by `initializeDatabase`. -/
def emptyDb : Db := ⟨[], [], [], [], [], []⟩

/-- The `conversations_fts` row written for a conversation
(`conv.project || ''` in the source). -/
def convFtsRowOf (conv : IndexedConversation) : ConvFtsRow :=
  ⟨conv.conversation_id, conv.title, conv.summary, conv.project.getD ""⟩

/-- SQLite `INSERT OR REPLACE INTO conversations`: `id` is the
`PRIMARY KEY` and `conversation_id` is `UNIQUE`, so every row conflicting
on either column is deleted before the new row is appended. -/
def replaceConversation (conv : IndexedConversation)
    (t : List IndexedConversation) : List IndexedConversation :=
  (t.filter fun r =>
    !(r.id == conv.id || r.conversation_id == conv.conversation_id)) ++ [conv]

/-- Embedding of `insertConversations` of `SearchIndex.ts`: per conversation, an
`INSERT OR REPLACE` into the relational table and an `INSERT OR REPLACE`
into the unconstrained FTS5 mirror (a plain append). -/
def insertConversations (convs : List IndexedConversation) (db : Db) : Db :=
  convs.foldl (fun d conv =>
    { d with
      conversations := replaceConversation conv d.conversations
      conversations_fts := d.conversations_fts ++ [convFtsRowOf conv] }) db

/-- Embedding of `insertMessages` of `SearchIndex.ts`: `INSERT OR REPLACE` keyed by the
`id` primary key; only content longer than 10 characters reaches the FTS
mirror. -/
def insertMessages (msgs : List IndexedMessage) (db : Db) : Db :=
  msgs.foldl (fun d msg =>
    { d with
      messages := (d.messages.filter fun r => !(r.id == msg.id)) ++ [msg]
      messages_fts :=
        if msg.content.length > 10 then
          d.messages_fts ++ [⟨msg.conversation_id, msg.content⟩]
        else d.messages_fts }) db

/-- Embedding of `insertCommands` of `SearchIndex.ts`: `INSERT OR REPLACE` keyed by the
`id` primary key, with an unconditional FTS append. -/
def insertCommands (cmds : List IndexedCommand) (db : Db) : Db :=
  cmds.foldl (fun d cmd =>
    { d with
      commands := (d.commands.filter fun r => !(r.id == cmd.id)) ++ [cmd]
      commands_fts :=
        d.commands_fts ++ [⟨cmd.conversation_id, cmd.command, cmd.context⟩] }) db

/-- Embedding of `clearIndex` of `SearchIndex.ts`: `DELETE FROM` each of the six
tables. -/
def clearIndex (_db : Db) : Db := emptyDb

/-- The mutable fields of the `SearchIndex` class: the database, the three
Fuse.js snapshots and the `isInitialized` flag. -/
structure SearchIndexState where
  db : Db
  conversationFuse : Option (List IndexedConversation)
  messageFuse : Option (List IndexedMessage)
  commandFuse : Option (List IndexedCommand)
  isInitialized : Bool

/-- The state right after the constructor ran: empty database, no Fuse
snapshots, not initialized. -/
def freshState : SearchIndexState := ⟨emptyDb, none, none, none, false⟩

/-! ## Ingestion Pipeline (`buildIndex`, `processBatch`)

The archive directory is modelled as the list of its files, each already
parsed: `fs.readdir`, `fs.readFile` and `JSON.parse` are deterministic,
and files whose JSON is malformed are skipped by the source, so they are
simply absent from the model. -/

/-- One entry of a conversation file's `messages` array; `content` is
`none` when the field is missing. -/
structure ArchiveMessage where
  role : String
  content : Option String
deriving Repr, DecidableEq

/-- The `metadata` object of a conversation file. -/
structure ArchiveMetadata where
  conversation_id : Option String
  created_at : Option String
  project : Option String
  user_turn_count : Option Nat
  assistant_turn_count : Option Nat
deriving Repr, DecidableEq

/-- A parsed conversation file of the archive, with its file name. -/
structure ArchiveFile where
  name : String
  title : Option String
  summary : Option String
  metadata : Option ArchiveMetadata
  messages : Option (List ArchiveMessage)
deriving Repr, DecidableEq

/-- JS `a || b` for a possibly missing string: both a missing and an
empty string fall back to `b`. -/
def jsOrStr (a : Option String) (b : String) : String :=
  match a with
  | some s => if s == "" then b else s
  | none => b

/-- JS falsiness of a message's `content` (`if (!msg.content) continue`):
missing or empty. -/
def contentTruthy (c : Option String) : Bool :=
  match c with
  | some s => !(s == "")
  | none => false

/-- The `IndexedConversation` derived from one archive file in
`processBatch`. -/
def fileConversation (f : ArchiveFile) : IndexedConversation :=
  let cid := jsOrStr (f.metadata.bind (·.conversation_id)) f.name
  { id := "conv_" ++ cid
    conversation_id := cid
    title := jsOrStr f.title ""
    summary := jsOrStr f.summary ""
    created_at := jsOrStr (f.metadata.bind (·.created_at)) ""
    project := f.metadata.bind (·.project)
    file_path := f.name
    message_count := (f.metadata.bind (·.user_turn_count)).getD 0 +
      (f.metadata.bind (·.assistant_turn_count)).getD 0 }

/-- The `IndexedMessage` rows derived from one archive file in
`processBatch`: entries with falsy content are skipped but keep their
array position as `message_index`. -/
def fileMessages (f : ArchiveFile) (cid : String) : List IndexedMessage :=
  match f.messages with
  | none => []
  | some msgs =>
      msgs.enum.foldl (fun acc p =>
        match p.2.content with
        | some c =>
            if c == "" then acc
            else acc ++ [{ id := "msg_" ++ cid ++ "_" ++ toString p.1
                           conversation_id := cid
                           message_index := p.1
                           role := p.2.role
                           content := c
                           content_type := detectContentType c }]
        | none => acc) []

/-- The `IndexedCommand` rows derived from one archive file in
`processBatch` (the Command Extractor applied to each indexed message). -/
def fileCommands (f : ArchiveFile) (cid : String) : List IndexedCommand :=
  match f.messages with
  | none => []
  | some msgs =>
      msgs.enum.foldl (fun acc p =>
        match p.2.content with
        | some c => if c == "" then acc else acc ++ extractCommands c cid p.1
        | none => acc) []

/-- Embedding of `processBatch` of `SearchIndex.ts`: accumulate the rows of a batch of
files, then insert conversations, messages and commands in that order. -/
def processBatch (files : List ArchiveFile) (db : Db) : Db :=
  let convs := files.map fileConversation
  let msgs := files.foldl
    (fun acc f => acc ++ fileMessages f (fileConversation f).conversation_id) []
  let cmds := files.foldl
    (fun acc f => acc ++ fileCommands f (fileConversation f).conversation_id) []
  insertCommands cmds (insertMessages msgs (insertConversations convs db))

/-- The batches of 50 files processed by `buildIndex`. -/
def chunks50 : List α → List (List α)
  | [] => []
  | a :: t => ((a :: t).take 50) :: chunks50 ((a :: t).drop 50)
termination_by l => l.length
decreasing_by
  simp [List.length_drop]
  omega

/-- Embedding of `buildIndex` of `SearchIndex.ts`: clear every table, keep the `.json`
files of the archive listing, process them in batches of 50, snapshot the
tables into the Fuse.js indexes (`buildFuseIndexes`, messages capped at
10000 rows), and finally set `isInitialized`. -/
def buildIndex (historyFiles : List ArchiveFile) (st : SearchIndexState) :
    SearchIndexState :=
  let jsonFiles := historyFiles.filter fun f => listEnds f.name.data ".json".data
  let db := (chunks50 jsonFiles).foldl (fun d batch => processBatch batch d)
    (clearIndex st.db)
  { db := db
    conversationFuse := some db.conversations
    messageFuse := some (db.messages.take 10000)
    commandFuse := some db.commands
    isInitialized := true }

/-! ## Query Engine (`searchConversations`, `searchCommands`,
`fuzzySearchCommands`, `getStats`) -/

/-- Oracle for the SQLite FTS5 engine, whose behaviour (`MATCH` and
`bm25`) is external to this repository: a match predicate and a rank for
each full-text row, given the query string. -/
structure FtsEngine where
  convMatch : String → ConvFtsRow → Bool
  convRank : String → ConvFtsRow → ℚ
  cmdMatch : String → CmdFtsRow → Bool
  cmdRank : String → CmdFtsRow → ℚ

/-- The options object of `searchConversations`. -/
structure ConvSearchOptions where
  project : Option String
  dateFrom : Option String
  dateTo : Option String
  limit : Option Int
deriving Repr, DecidableEq

/-- The options object of `searchCommands`. -/
structure CmdSearchOptions where
  commandType : Option String
  limit : Option Int
deriving Repr, DecidableEq

/-- JS truthiness of an optional string option (`if (project)`,
`if (dateFrom)`, ...): present and non-empty. -/
def jsTruthy (o : Option String) : Bool :=
  match o with
  | some s => !(s == "")
  | none => false

/-- SQLite `LIMIT n`: a negative limit means no limit at all. -/
def sqlLimit (n : Int) (l : List α) : List α :=
  if n < 0 then l else l.take n.toNat

/-- A `SearchResult` of type `conversation`: the matched row and its
`bm25` rank as the score. -/
structure ConvHit where
  item : IndexedConversation
  score : ℚ
deriving Repr, DecidableEq

/-- A `SearchResult` of type `command`. -/
structure CmdHit where
  item : IndexedCommand
  score : ℚ
deriving Repr, DecidableEq

/-- The relation `ORDER BY rank` of `searchConversations` sorts by. -/
def convOrder (a b : ConvHit) : Prop := a.score ≤ b.score

instance : DecidableRel convOrder := fun a b =>
  inferInstanceAs (Decidable (a.score ≤ b.score))

instance : IsTotal ConvHit convOrder := ⟨fun a b => le_total a.score b.score⟩

instance : IsTrans ConvHit convOrder :=
  ⟨fun _ _ _ h1 h2 => le_trans h1 h2⟩

/-- The relation `ORDER BY rank, c.confidence DESC` of `searchCommands` sorts by: ascending
rank, ties broken by descending confidence. -/
def cmdOrder (a b : CmdHit) : Prop :=
  a.score < b.score ∨ (a.score = b.score ∧ b.item.confidence ≤ a.item.confidence)

instance : DecidableRel cmdOrder := fun a b =>
  inferInstanceAs (Decidable (a.score < b.score ∨
    (a.score = b.score ∧ b.item.confidence ≤ a.item.confidence)))

instance : IsTotal CmdHit cmdOrder := by
  constructor
  intro a b
  rcases lt_trichotomy a.score b.score with h | h | h
  · exact Or.inl (Or.inl h)
  · rcases le_total b.item.confidence a.item.confidence with hc | hc
    · exact Or.inl (Or.inr ⟨h, hc⟩)
    · exact Or.inr (Or.inr ⟨h.symm, hc⟩)
  · exact Or.inr (Or.inl h)

instance : IsTrans CmdHit cmdOrder := by
  constructor
  intro a b c hab hbc
  rcases hab with h1 | ⟨h1, hc1⟩
  · rcases hbc with h2 | ⟨h2, _⟩
    · exact Or.inl (lt_trans h1 h2)
    · exact Or.inl (h2 ▸ h1)
  · rcases hbc with h2 | ⟨h2, hc2⟩
    · exact Or.inl (h1 ▸ h2)
    · exact Or.inr ⟨h1.trans h2, le_trans hc2 hc1⟩

/-- The text stored in the `command_type` column for a command row. -/
def commandTypeStr : CommandType → String
  | .cli => "cli"
  | .code => "code"
  | .config => "config"

/-- The row set of `searchConversations`' SQL query: `conversations`
joined with `conversations_fts` on `conversation_id`, restricted to the
FTS matches, with the `project`, `created_at >=` and `created_at <=`
conditions appended only for truthy option values (the source builds the
`WHERE` clause with `if (project)`-style guards); each row carries its
`bm25` rank. -/
def convQueryRows (eng : FtsEngine) (st : SearchIndexState)
    (query : String) (options : ConvSearchOptions) : List ConvHit :=
  st.db.conversations.flatMap fun c =>
    (st.db.conversations_fts.filter fun f =>
      f.conversation_id == c.conversation_id && eng.convMatch query f &&
      (!jsTruthy options.project || c.project == some (options.project.getD "")) &&
      (!jsTruthy options.dateFrom || strLe (options.dateFrom.getD "") c.created_at) &&
      (!jsTruthy options.dateTo || strLe c.created_at (options.dateTo.getD ""))).map
    fun f => ConvHit.mk c (eng.convRank query f)

/-- Embedding of `searchConversations`, given the row set `convQueryRows`: order by
rank ascending, apply `LIMIT` (default 10). -/
def searchConversations (eng : FtsEngine) (st : SearchIndexState)
    (query : String) (options : ConvSearchOptions) :
    Except String (List ConvHit) :=
  if !st.isInitialized then .error "Search index not initialized"
  else .ok (sqlLimit (options.limit.getD 10)
    (List.insertionSort convOrder (convQueryRows eng st query options)))

/-- The `commandType && commandType !== 'any'` guard of `searchCommands`. -/
def cmdTypeActive (o : Option String) : Bool :=
  jsTruthy o && !(o.getD "" == "any")

/-- The row set of `searchCommands`' SQL query: `commands` joined with
`commands_fts` on `conversation_id`, restricted to the FTS matches, with
the `command_type` condition appended only when the option is truthy and
not the sentinel `'any'`; each row carries its `bm25` rank. -/
def cmdQueryRows (eng : FtsEngine) (st : SearchIndexState)
    (query : String) (options : CmdSearchOptions) : List CmdHit :=
  st.db.commands.flatMap fun c =>
    (st.db.commands_fts.filter fun f =>
      f.conversation_id == c.conversation_id && eng.cmdMatch query f &&
      (!cmdTypeActive options.commandType ||
        commandTypeStr c.command_type == options.commandType.getD "")).map
    fun f => CmdHit.mk c (eng.cmdRank query f)

/-- Embedding of `searchCommands`, given the row set `cmdQueryRows`: order by rank
ascending then confidence descending, apply `LIMIT` (default 10). -/
def searchCommands (eng : FtsEngine) (st : SearchIndexState)
    (query : String) (options : CmdSearchOptions) :
    Except String (List CmdHit) :=
  if !st.isInitialized then .error "Search index not initialized"
  else .ok (sqlLimit (options.limit.getD 10)
    (List.insertionSort cmdOrder (cmdQueryRows eng st query options)))

/-- Embedding of `fuzzySearchCommands` of `SearchIndex.ts`: guarded on both the
initialization flag and the presence of the `commandFuse` snapshot; the
Fuse.js search itself is external to the repository and passed as an
oracle. -/
def fuzzySearchCommands (fuse : List IndexedCommand → String → Nat → List CmdHit)
    (st : SearchIndexState) (query : String) (limit : Nat) :
    Except String (List CmdHit) :=
  if !st.isInitialized || st.commandFuse.isNone then
    .error "Search index not initialized"
  else .ok (fuse (st.commandFuse.getD []) query limit)

/-- The result of `getStats`. -/
structure Stats where
  conversations : Nat
  messages : Nat
  commands : Nat
deriving Repr, DecidableEq

/-- Embedding of `getStats` of `SearchIndex.ts`: the `COUNT(*)` of the three relational
tables.  Unlike the search operations, the source performs no
`isInitialized` check here. -/
def getStats (st : SearchIndexState) : Stats :=
  ⟨st.db.conversations.length, st.db.messages.length, st.db.commands.length⟩

/-! ## The duplicated context-window helper of `src/index.ts` -/

namespace IndexTs

/-- Embedding of `getContextAround` as duplicated in the tool-dispatch module
`src/index.ts` (lines 907-911). -/
def getContextAround (lines : List String) (lineIndex contextLines : Nat) : String :=
  let start := lineIndex - contextLines
  let stop := min lines.length (lineIndex + contextLines + 1)
  jsTrim (String.intercalate "\n" ((lines.drop start).take (stop - start)))

end IndexTs

/-- The context window as the specification words it: the trimmed join of
lines `[max(0, i - n) .. min(len, i + n + 1))`, indices read over the
integers. -/
def contextWindowSpec (lines : List String) (i n : Nat) : String :=
  let start := (max 0 ((i : Int) - (n : Int))).toNat
  let stop := min lines.length (i + n + 1)
  jsTrim (String.intercalate "\n" ((lines.drop start).take (stop - start)))

/-! ## Concrete fixtures used to instantiate the theorems -/

/-- An FTS oracle on which every row matches every query with rank 0. -/
def allEngine : FtsEngine :=
  ⟨fun _ _ => true, fun _ _ => mkRat 0 1, fun _ _ => true, fun _ _ => mkRat 0 1⟩

/-- A sample conversation row. -/
def exConv : IndexedConversation :=
  ⟨"conv_x", "x", "Python tips", "Notes", "2024-01-02", some "p1", "x.json", 2⟩

/-- The FTS mirror row of `exConv`. -/
def exConvFts : ConvFtsRow := ⟨"x", "Python tips", "Notes", "p1"⟩

/-- A sample command row. -/
def exCmd : IndexedCommand :=
  ⟨"cmd_x_0_0", "x", 0, "git status", .cli, "ctx", mkRat 9 10⟩

/-- The FTS mirror row of `exCmd`. -/
def exCmdFts : CmdFtsRow := ⟨"x", "git status", "ctx"⟩

/-- A small initialized index state holding `exConv` and `exCmd`. -/
def exState : SearchIndexState :=
  ⟨⟨[exConv], [exConvFts], [], [], [exCmd], [exCmdFts]⟩,
   some [exConv], some [], some [exCmd], true⟩

/-! ## Supporting lemmas -/

/-- A non-whitespace character survives `dropWhile isJsWs` (and, more
generally, any `dropWhile` whose predicate it falsifies). -/
theorem mem_dropWhile_of_mem {p : Char → Bool} {c : Char} {l : List Char}
    (h : c ∈ l) (hp : p c = false) : c ∈ l.dropWhile p := by
  induction l with
  | nil => cases h
  | cons a t ih =>
    rw [List.dropWhile_cons]
    rcases List.mem_cons.mp h with rfl | ht
    · simp [hp]
    · by_cases ha : p a
      · simpa [ha] using ih ht
      · simp [ha, List.mem_cons, ht]

/-- A non-whitespace character of a string survives JS trimming. -/
theorem mem_trimChars {c : Char} {l : List Char}
    (h : c ∈ l) (hw : isJsWs c = false) : c ∈ trimChars l := by
  unfold trimChars
  rw [List.mem_reverse]
  exact mem_dropWhile_of_mem (List.mem_reverse.mpr (mem_dropWhile_of_mem h hw)) hw

/-- The `includes` test of a single-character needle holds when the character is
present. -/
theorem listHas_of_mem {c : Char} {l : List Char} (h : c ∈ l) :
    listHas l [c] = true := by
  induction l with
  | nil => cases h
  | cons a t ih =>
    rcases List.mem_cons.mp h with rfl | ht
    · simp [listHas, listStarts]
    · simp [listHas, listStarts, ih ht]

/-- Conversely, when `includes` finds a needle, the needle's first
character is present in the haystack. -/
theorem mem_of_listHas_cons {c : Char} {rest l : List Char}
    (h : listHas l (c :: rest) = true) : c ∈ l := by
  induction l with
  | nil => simp [listHas] at h
  | cons a t ih =>
    rw [listHas, Bool.or_eq_true] at h
    rcases h with h1 | h2
    · rw [listStarts, Bool.and_eq_true] at h1
      have : a = c := by simpa using h1.1
      exact this ▸ List.mem_cons_self a t
    · exact List.mem_cons_of_mem a (ih h2)

/-- A `List.all` test fails as soon as one member falsifies the predicate. -/
theorem all_eq_false_of_mem {p : Char → Bool} {c : Char} {l : List Char}
    (h : c ∈ l) (hp : p c = false) : l.all p = false := by
  cases hall : l.all p with
  | false => rfl
  | true => exact absurd (List.all_eq_true.mp hall c h) (by simp [hp])

/-- Membership survives `sqlLimit`. -/
theorem mem_sqlLimit {α : Type} {n : Int} {l : List α} {x : α}
    (h : x ∈ sqlLimit n l) : x ∈ l := by
  unfold sqlLimit at h
  split at h
  · exact h
  · exact List.Sublist.mem h (List.take_sublist _ _)

/-- Applying `sqlLimit` with a non-negative limit returns at most that many rows. -/
theorem length_sqlLimit_le {α : Type} {n : Int} {l : List α} (hn : 0 ≤ n) :
    (sqlLimit n l).length ≤ n.toNat := by
  unfold sqlLimit
  split
  · next hlt => exact absurd hlt (not_lt.mpr hn)
  · rw [List.length_take]
    exact min_le_left _ _

/-- Every string is lexically at least the empty string (SQLite TEXT
order). -/
theorem strLe_empty_left (s : String) : strLe "" s = true := rfl

/-! ## Claim theorems -/

/-- C10: `detectContentType` tests only character containment, not the
presence of a complete backtick-delimited span: any content containing a
backtick character — even a single unpaired one — is classified `code`. -/
theorem detectContentType_code_of_backtick (s : String) (h : btChar ∈ s.data) :
    detectContentType s = .code := by
  have h1 : strIncludes s "`" = true := by
    have hdata : ("`" : String).data = [btChar] := by decide
    show listHas s.data ("`" : String).data = true
    rw [hdata]
    exact listHas_of_mem h
  simp [detectContentType, h1]

/-- C10 witness: a single unpaired backtick, with no closing backtick and
no fenced block, already classifies as `code`. -/
theorem detectContentType_code_of_backtick_witness :
    btChar ∈ ("a`b" : String).data ∧ detectContentType "a`b" = .code :=
  ⟨by decide, detectContentType_code_of_backtick "a`b" (by decide)⟩

/-- C4: the classifier applies its rules in the fixed precedence order
code > command > text — backtick content is `code` no matter which
command-shape patterns are also present, and content with no signal at
all is `text`.  (The classifier is a total function, so it never raises.) -/
theorem detectContentType_precedence (s : String) :
    (strIncludes s "```" = true ∨ strIncludes s "`" = true →
      detectContentType s = .code) ∧
    (strIncludes s "`" = false → hasCommandPatterns s = false →
      detectContentType s = .text) := by
  constructor
  · intro h
    rcases h with h | h <;> simp [detectContentType, h]
  · intro hb hc
    have h3 : strIncludes s "```" = false := by
      cases hcase : strIncludes s "```" with
      | false => rfl
      | true =>
        have hdata3 : ("```" : String).data = [btChar, btChar, btChar] := by
          decide
        have hh2 : listHas s.data [btChar, btChar, btChar] = true := by
          rw [← hdata3]
          exact hcase
        have hm : btChar ∈ s.data := mem_of_listHas_cons hh2
        have h1 : strIncludes s "`" = true := by
          have hdata1 : ("`" : String).data = [btChar] := by decide
          show listHas s.data ("`" : String).data = true
          rw [hdata1]
          exact listHas_of_mem hm
        rw [h1] at hb
        cases hb
    simp [detectContentType, h3, hb, hc]

/-- C4 witness: content holding both a fenced code block and a
`$ npm install` line classifies as `code`; content with no signal
classifies as `text`. -/
theorem detectContentType_precedence_witness :
    detectContentType "```js\n$ npm install x\n```" = .code ∧
    detectContentType "hello world." = .text :=
  ⟨(detectContentType_precedence ("```js\n$ npm install x\n```")).1
      (Or.inl (by decide)),
   (detectContentType_precedence ("hello world.")).2 (by decide) (by decide)⟩

/-- C9: a candidate containing a brace or parenthesis is never accepted by
`looksLikeCommand`: the escape-hatch character class `[\w\s\-=\.\/]`
excludes exactly those characters, so the exception branch can never
fire for such a string. -/
theorem looksLikeCommand_rejects_braces (s : String) (c : Char)
    (hc : c = lbraceChar ∨ c = rbraceChar ∨ c = '(' ∨ c = ')')
    (hmem : c ∈ s.data) :
    looksLikeCommand s = false ∧ matchesParamClass (jsTrim s).data = false := by
  have hw : isJsWs c = false := by
    rcases hc with rfl | rfl | rfl | rfl <;> decide
  have hpc : isParamClassChar c = false := by
    rcases hc with rfl | rfl | rfl | rfl <;> decide
  have hmt : c ∈ (jsTrim s).data := mem_trimChars hmem hw
  have hmpc : matchesParamClass (jsTrim s).data = false := by
    unfold matchesParamClass
    rw [all_eq_false_of_mem hmt hpc]
    simp
  refine ⟨?_, hmpc⟩
  unfold looksLikeCommand
  by_cases hlen : (jsTrim s).length > 200 || (jsTrim s).length < 3
  · simp [hlen]
  · have hinc : (strIncludes (jsTrim s) (String.mk [lbraceChar]) ||
        strIncludes (jsTrim s) (String.mk [rbraceChar]) ||
        strIncludes (jsTrim s) "(" ||
        strIncludes (jsTrim s) ")") = true := by
      have hhas := listHas_of_mem hmt
      rcases hc with rfl | rfl | rfl | rfl
      · simp [strIncludes, hhas]
      · simp [strIncludes, hhas]
      · have hd : ("(" : String).data = ['('] := by decide
        simp [strIncludes, hd, hhas]
      · have hd : (")" : String).data = [')'] := by decide
        simp [strIncludes, hd, hhas]
    simp [hlen, hinc, hmpc]

/-- C9 witness: the code-call shape `foo(bar)` is rejected. -/
theorem looksLikeCommand_rejects_braces_witness :
    looksLikeCommand "foo(bar)" = false ∧
    matchesParamClass (jsTrim "foo(bar)").data = false :=
  looksLikeCommand_rejects_braces "foo(bar)" '(' (by decide) (by decide)

/-- C3: on `` Run `npm install -g firebase-tools` then `firebase login` ``
the Command Extractor yields at least two candidates:
`npm install -g firebase-tools` and `firebase login`, both of type cli
with confidence at least 0.9. -/
theorem extractCommands_firebase_example :
    2 ≤ (extractCommands
        "Run `npm install -g firebase-tools` then `firebase login`"
        "conv1" 0).length ∧
    (∃ c ∈ extractCommands
        "Run `npm install -g firebase-tools` then `firebase login`"
        "conv1" 0,
      c.command = "npm install -g firebase-tools" ∧
      c.command_type = .cli ∧ mkRat 9 10 ≤ c.confidence) ∧
    (∃ c ∈ extractCommands
        "Run `npm install -g firebase-tools` then `firebase login`"
        "conv1" 0,
      c.command = "firebase login" ∧
      c.command_type = .cli ∧ mkRat 9 10 ≤ c.confidence) := by
  refine ⟨by decide, by decide, by decide⟩

/-- C1 (amended): before initialization `searchConversations`,
`searchCommands` and `fuzzySearchCommands` fail with the
"Search index not initialized" error; `getStats`, which has no guard in
the source, instead returns the current row counts. -/
theorem uninitialized_operations (eng : FtsEngine)
    (fuse : List IndexedCommand → String → Nat → List CmdHit)
    (st : SearchIndexState) (q : String) (co : ConvSearchOptions)
    (ko : CmdSearchOptions) (n : Nat) (h : st.isInitialized = false) :
    searchConversations eng st q co = .error "Search index not initialized" ∧
    searchCommands eng st q ko = .error "Search index not initialized" ∧
    fuzzySearchCommands fuse st q n = .error "Search index not initialized" ∧
    getStats st = ⟨st.db.conversations.length, st.db.messages.length,
      st.db.commands.length⟩ := by
  refine ⟨?_, ?_, ?_, rfl⟩ <;>
    simp [searchConversations, searchCommands, fuzzySearchCommands, h]

/-- C1 witness at the fresh (just-constructed) state. -/
theorem uninitialized_operations_witness :
    searchConversations allEngine freshState "q" ⟨none, none, none, none⟩ =
      .error "Search index not initialized" ∧
    searchCommands allEngine freshState "q" ⟨none, none⟩ =
      .error "Search index not initialized" ∧
    fuzzySearchCommands (fun _ _ _ => []) freshState "q" 10 =
      .error "Search index not initialized" ∧
    getStats freshState = ⟨0, 0, 0⟩ := by
  have h := uninitialized_operations allEngine (fun _ _ _ => []) freshState "q"
    ⟨none, none, none, none⟩ ⟨none, none⟩ 10 rfl
  exact ⟨h.1, h.2.1, h.2.2.1, h.2.2.2⟩

/-- C1 counterexample: `getStats` invoked on the fresh uninitialized state
does not fail with a not-initialized error — it silently returns zero
counts. -/
theorem getStats_uninitialized_counterexample :
    freshState.isInitialized = false ∧ getStats freshState = ⟨0, 0, 0⟩ :=
  ⟨rfl, rfl⟩

/-- C2 (amended): inserting two conversation rows sharing a
`conversation_id` leaves exactly one relational row — the latest — for
that id, while the FTS5 mirror, which has no uniqueness constraint,
receives one appended row per insert. -/
theorem insertConversations_upsert (db : Db) (c1 c2 : IndexedConversation)
    (h : c1.conversation_id = c2.conversation_id) :
    ((insertConversations [c2] (insertConversations [c1] db)).conversations.filter
      fun r => r.conversation_id == c2.conversation_id) = [c2] ∧
    (insertConversations [c2] (insertConversations [c1] db)).conversations_fts =
      db.conversations_fts ++ [convFtsRowOf c1, convFtsRowOf c2] := by
  constructor
  · show (List.filter (fun r => r.conversation_id == c2.conversation_id)
      ((List.filter
          (fun r => !(r.id == c2.id || r.conversation_id == c2.conversation_id))
          ((List.filter
              (fun r => !(r.id == c1.id || r.conversation_id == c1.conversation_id))
              db.conversations) ++ [c1])) ++ [c2])) = [c2]
    have hnil : List.filter (fun r => r.conversation_id == c2.conversation_id)
        (List.filter
          (fun r => !(r.id == c2.id || r.conversation_id == c2.conversation_id))
          ((List.filter
              (fun r => !(r.id == c1.id || r.conversation_id == c1.conversation_id))
              db.conversations) ++ [c1])) = [] := by
      rw [List.filter_eq_nil_iff]
      intro r hr
      have hp := (List.mem_filter.mp hr).2
      intro hq
      rw [hq] at hp
      simp at hp
    rw [List.filter_append, hnil]
    simp
  · show (db.conversations_fts ++ [convFtsRowOf c1]) ++ [convFtsRowOf c2] =
      db.conversations_fts ++ [convFtsRowOf c1, convFtsRowOf c2]
    simp

/-- C2 witness: two concrete rows sharing `conversation_id` "x" — the
relational table ends up with exactly the second row. -/
theorem insertConversations_upsert_witness :
    ((insertConversations
        [⟨"conv_x", "x", "T2", "S2", "2024-02-03", some "p1", "x.json", 3⟩]
        (insertConversations [exConv] emptyDb)).conversations.filter
      fun r => r.conversation_id == "x") =
      [⟨"conv_x", "x", "T2", "S2", "2024-02-03", some "p1", "x.json", 3⟩] := by
  have h := insertConversations_upsert emptyDb exConv
    ⟨"conv_x", "x", "T2", "S2", "2024-02-03", some "p1", "x.json", 3⟩ rfl
  exact h.1

/-- C2 counterexample: after the same two upserts the FTS5 mirror holds
two rows for `conversation_id` "x" — the mirror is not deduplicated,
contradicting the claim for the full-text mirror. -/
theorem insertConversations_fts_duplicate_counterexample :
    ((insertConversations
        [⟨"conv_x", "x", "T2", "S2", "2024-02-03", some "p1", "x.json", 3⟩]
        (insertConversations [exConv] emptyDb)).conversations_fts.filter
      fun f => f.conversation_id == "x").length = 2 := by decide

/-- C5 (amended): every conversation returned by `searchConversations`
satisfies the active filters — stored `project` equal to the filter
whenever a non-empty project filter is given, the inclusive lexical
`created_at` range for the date options — and at most `limit` results
(default 10) are returned for a non-negative limit.  A present-but-empty
option string is falsy in JS, so the source skips that filter; the
`dateFrom` conjunct needs no such proviso only because every string is
lexically at least the empty string. -/
theorem searchConversations_filter_contract (eng : FtsEngine)
    (st : SearchIndexState) (q : String) (opts : ConvSearchOptions)
    (res : List ConvHit) (r : ConvHit)
    (hres : searchConversations eng st q opts = .ok res) :
    (∀ p, opts.project = some p → p ≠ "" → r ∈ res →
      r.item.project = some p) ∧
    (∀ d, opts.dateFrom = some d → r ∈ res →
      strLe d r.item.created_at = true) ∧
    (∀ d, opts.dateTo = some d → d ≠ "" → r ∈ res →
      strLe r.item.created_at d = true) ∧
    (∀ n, opts.limit = some n → 0 ≤ n → res.length ≤ n.toNat) ∧
    (opts.limit = none → res.length ≤ 10) := by
  unfold searchConversations at hres
  split at hres
  · exact absurd hres (by simp)
  · rw [Except.ok.injEq] at hres
    subst hres
    have hface : r ∈ sqlLimit (opts.limit.getD 10)
        (List.insertionSort convOrder (convQueryRows eng st q opts)) →
        ((!jsTruthy opts.project ||
          r.item.project == some (opts.project.getD "")) = true ∧
         (!jsTruthy opts.dateFrom ||
          strLe (opts.dateFrom.getD "") r.item.created_at) = true ∧
         (!jsTruthy opts.dateTo ||
          strLe r.item.created_at (opts.dateTo.getD "")) = true) := by
      intro hr
      have hr2 : r ∈ convQueryRows eng st q opts :=
        ((List.perm_insertionSort convOrder _).mem_iff).mp (mem_sqlLimit hr)
      obtain ⟨c, hc, hmap⟩ := List.mem_flatMap.mp hr2
      obtain ⟨f, hf, hrid⟩ := List.mem_map.mp hmap
      obtain ⟨hfmem, hcond⟩ := List.mem_filter.mp hf
      subst hrid
      simp only [Bool.and_eq_true] at hcond
      exact ⟨hcond.1.1.2, hcond.1.2, hcond.2⟩
    refine ⟨?_, ?_, ?_, ?_, ?_⟩
    · intro p hp hpne hr
      have h1 := (hface hr).1
      rw [hp] at h1
      simp [jsTruthy, hpne] at h1
      exact h1
    · intro d hd hr
      have h2 := (hface hr).2.1
      rw [hd] at h2
      by_cases hde : d = ""
      · subst hde
        exact strLe_empty_left _
      · simp [jsTruthy, hde] at h2
        exact h2
    · intro d hd hdne hr
      have h3 := (hface hr).2.2
      rw [hd] at h3
      simp [jsTruthy, hdne] at h3
      exact h3
    · intro n hn hn0
      rw [hn]
      simp only [Option.getD_some]
      exact length_sqlLimit_le hn0
    · intro hn
      rw [hn]
      simpa using length_sqlLimit_le (by norm_num : (0:Int) ≤ 10)

/-- C5 witness at a concrete store: the single stored conversation passes
the project and date filters and the limit bound. -/
theorem searchConversations_filter_contract_witness :
    (⟨exConv, mkRat 0 1⟩ : ConvHit).item.project = some "p1" ∧
    strLe "2024-01-01" (⟨exConv, mkRat 0 1⟩ : ConvHit).item.created_at = true ∧
    strLe (⟨exConv, mkRat 0 1⟩ : ConvHit).item.created_at "2024-12-31" = true ∧
    ([⟨exConv, mkRat 0 1⟩] : List ConvHit).length ≤ (5 : Int).toNat := by
  have h := searchConversations_filter_contract allEngine exState "python"
    ⟨some "p1", some "2024-01-01", some "2024-12-31", some 5⟩
    [⟨exConv, mkRat 0 1⟩] ⟨exConv, mkRat 0 1⟩ rfl
  exact ⟨h.1 "p1" rfl (by decide) (List.mem_singleton.mpr rfl),
         h.2.1 "2024-01-01" rfl (List.mem_singleton.mpr rfl),
         h.2.2.1 "2024-12-31" rfl (by decide) (List.mem_singleton.mpr rfl),
         h.2.2.2.1 5 rfl (by decide)⟩

/-- C5 counterexample: a present-but-empty project filter is falsy in JS,
so the source skips the `project` clause and a conversation whose stored
project differs from the filter value is returned — the claim as stated
("when one is given") fails for the empty-string filter. -/
theorem searchConversations_empty_project_counterexample :
    searchConversations allEngine exState "python" ⟨some "", none, none, none⟩ =
      .ok [⟨exConv, mkRat 0 1⟩] ∧ exConv.project ≠ some "" :=
  ⟨rfl, by decide⟩

/-- C6: `searchCommands` returns rows sorted by ascending rank with ties
broken by descending confidence, returns at most `limit` rows (default
10), filters exactly on `command_type` for the values cli/code/config,
and applies no type filter for the sentinel `'any'` (same result as an
absent option). -/
theorem searchCommands_contract (eng : FtsEngine) (st : SearchIndexState)
    (q : String) (opts : CmdSearchOptions) (res : List CmdHit) (r : CmdHit)
    (hres : searchCommands eng st q opts = .ok res) :
    (∀ t, opts.commandType = some t →
      (t = "cli" ∨ t = "code" ∨ t = "config") → r ∈ res →
      commandTypeStr r.item.command_type = t) ∧
    List.Sorted cmdOrder res ∧
    (∀ n, opts.limit = some n → 0 ≤ n → res.length ≤ n.toNat) ∧
    (opts.limit = none → res.length ≤ 10) ∧
    (opts.commandType = some "any" →
      searchCommands eng st q ⟨none, opts.limit⟩ = .ok res) := by
  have hany : opts.commandType = some "any" →
      searchCommands eng st q ⟨none, opts.limit⟩ = .ok res := by
    intro ha
    rcases opts with ⟨ct, l⟩
    replace ha : ct = some "any" := ha
    subst ha
    exact hres
  unfold searchCommands at hres
  split at hres
  · exact absurd hres (by simp)
  · rw [Except.ok.injEq] at hres
    subst hres
    refine ⟨?_, ?_, ?_, ?_, hany⟩
    · intro t ht htv hr
      have hr2 : r ∈ cmdQueryRows eng st q opts :=
        ((List.perm_insertionSort cmdOrder _).mem_iff).mp (mem_sqlLimit hr)
      obtain ⟨c, hc, hmap⟩ := List.mem_flatMap.mp hr2
      obtain ⟨f, hf, hrid⟩ := List.mem_map.mp hmap
      obtain ⟨hfmem, hcond⟩ := List.mem_filter.mp hf
      subst hrid
      simp only [Bool.and_eq_true] at hcond
      have hcheck := hcond.2
      rw [ht] at hcheck
      rcases htv with rfl | rfl | rfl
      · rw [show cmdTypeActive (some "cli") = true from by decide] at hcheck
        simp at hcheck
        simpa using hcheck
      · rw [show cmdTypeActive (some "code") = true from by decide] at hcheck
        simp at hcheck
        simpa using hcheck
      · rw [show cmdTypeActive (some "config") = true from by decide] at hcheck
        simp at hcheck
        simpa using hcheck
    · have hsorted :=
        List.sorted_insertionSort cmdOrder (cmdQueryRows eng st q opts)
      unfold sqlLimit
      split
      · exact hsorted
      · exact List.Pairwise.sublist (List.take_sublist _ _) hsorted
    · intro n hn hn0
      rw [hn]
      simp only [Option.getD_some]
      exact length_sqlLimit_le hn0
    · intro hn
      rw [hn]
      simpa using length_sqlLimit_le (by norm_num : (0:Int) ≤ 10)

/-- C6 witness at a concrete store: the stored cli command matches the
`cli` filter, the singleton result is sorted, the limit bound holds, and
the `'any'` sentinel yields the same result as an absent type option. -/
theorem searchCommands_contract_witness :
    commandTypeStr (⟨exCmd, mkRat 0 1⟩ : CmdHit).item.command_type = "cli" ∧
    List.Sorted cmdOrder [(⟨exCmd, mkRat 0 1⟩ : CmdHit)] ∧
    ([⟨exCmd, mkRat 0 1⟩] : List CmdHit).length ≤ (10 : Int).toNat ∧
    searchCommands allEngine exState "git" ⟨none, some 10⟩ =
      .ok [⟨exCmd, mkRat 0 1⟩] := by
  have h := searchCommands_contract allEngine exState "git" ⟨some "cli", some 10⟩
    [⟨exCmd, mkRat 0 1⟩] ⟨exCmd, mkRat 0 1⟩ rfl
  have h2 := searchCommands_contract allEngine exState "git" ⟨some "any", some 10⟩
    [⟨exCmd, mkRat 0 1⟩] ⟨exCmd, mkRat 0 1⟩ rfl
  exact ⟨h.1 "cli" rfl (Or.inl rfl) (List.mem_singleton.mpr rfl),
         h.2.1, h.2.2.1 10 rfl (by decide), h2.2.2.2.2 rfl⟩

/-- C7: `buildIndex` truncates every table before re-deriving rows
deterministically from the archive, so a second build over the same
archive reproduces the same state — in particular `getStats` reports
identical conversation, message and command counts. -/
theorem buildIndex_idempotent (archive : List ArchiveFile)
    (st : SearchIndexState) :
    getStats (buildIndex archive (buildIndex archive st)) =
      getStats (buildIndex archive st) ∧
    buildIndex archive (buildIndex archive st) = buildIndex archive st :=
  ⟨rfl, rfl⟩

/-- C8: the `getContextAround` of `SearchIndex.ts` and the duplicate in
`src/index.ts` agree on every input, and both compute the window the spec
describes: the trimmed join of lines `[max(0,i-n) .. min(len,i+n+1))`. -/
theorem getContextAround_consistent (lines : List String) (i n : Nat) :
    getContextAround lines i n = IndexTs.getContextAround lines i n ∧
    getContextAround lines i n = contextWindowSpec lines i n := by
  refine ⟨rfl, ?_⟩
  unfold getContextAround contextWindowSpec
  have hs : (max 0 ((i : Int) - (n : Int))).toNat = i - n := by omega
  rw [hs]

end MemexSearch
